import Mathlib

/-!
Shallow embedding of `src/videoq/videoq.c`: a single-producer / multi-consumer
fanout ring of fixed-size segments.  The shared control block `struct Inner`
becomes the structure `Inner`; every public operation becomes a pure function
from an `Inner` state to a result code and a new state.  The mutex is modelled
by a `locked` flag (lock = set, unlock = clear: in the sequential traces we
examine, each acquisition starts from the unlocked state, so blocking never
occurs).  Segment payload memory is `Option (List Nat)` per slot: `none`
stands for memory with no defined byte content (a NULL pointer or a freshly
malloc'd buffer that no `memcpy` has written); `memcpy` makes it `some bytes`.
`uint8_t` counters wrap modulo 256 as in C.
-/

namespace Videoq

/-- Constant MAX_SEGMENTS from videoq.c. -/
def MAX_SEGMENTS : Nat := 16

/-- Flag bit FLAG_CONFLATION. -/
def FLAG_CONFLATION : Nat := 1

/-- Flag bit FLAG_NO_SENDER. -/
def FLAG_NO_SENDER : Nat := 2

/-- Error code NO_RECEIVERS. -/
def NO_RECEIVERS : Nat := 1

/-- Error code SENDER_CLOSED. -/
def SENDER_CLOSED : Nat := 2

/-- Error code MAX_RECEIVERS. -/
def MAX_RECEIVERS : Nat := 3

/-- Structure Inner of videoq.c, plus the mutex state (`locked`) and whether
`free_ringq` has run (`freed`), so that lock discipline and teardown are
observable in the model. -/
structure Inner where
  segments : List (Option (List Nat))
  timestamps : List Nat
  num_borrows : List Nat
  num_segments : Nat
  bufsize : Nat
  last_written_block : Nat
  prev_written_block : Nat
  num_receivers : Nat
  flags : Nat
  locked : Bool
  freed : Bool
deriving Repr, DecidableEq

/-- The per-borrow state a `struct Receiver` carries between `start_recv` and
`end_recv`: the borrowed index and the cached timestamp.  The C `data_ptr`
is a pointer into the ring; dereferencing it at a later instant is modelled
by `observe` below. -/
structure Receiver where
  index : Nat
  timestamp : Nat
deriving Repr, DecidableEq

/-- What the receiver's `data_ptr` reads in ring state `r`: the current
content of the borrowed segment. -/
def observe (r : Inner) (rc : Receiver) : Option (List Nat) :=
  r.segments.getD rc.index none

/-- Function init_ringq: three segments allocated (content undefined), timestamps
and borrow counters zeroed, `last_written_block = 0`, `prev_written_block = 1`,
one receiver, no flags. -/
def init_ringq (bufsize : Nat) : Inner :=
  { segments := List.replicate MAX_SEGMENTS none
    timestamps := List.replicate MAX_SEGMENTS 0
    num_borrows := List.replicate MAX_SEGMENTS 0
    num_segments := 3
    bufsize := bufsize
    last_written_block := 0
    prev_written_block := 1
    num_receivers := 1
    flags := 0
    locked := false
    freed := false }

/-- Function new_ringq: allocates the control block and runs `init_ringq`.
The Sender/Receiver pair both point at this state. -/
def new_ringq (bufsize : Nat) : Inner :=
  init_ringq bufsize

/-- The loop of `_get_free_writer`: `i` is the loop counter, the second
argument the number of iterations left (`num_segments - i`).  Skips
`last_written_block`; returns the first index with `num_borrows == 0`. -/
def freeWriterScan (r : Inner) (i : Nat) : Nat → Option Nat
  | 0 => none
  | fuel + 1 =>
    if i = r.last_written_block then freeWriterScan r (i + 1) fuel
    else if r.num_borrows.getD i 0 = 0 then some i
    else freeWriterScan r (i + 1) fuel

/-- Function _get_free_writer: `free_writer` starts at `last_written_block` and the
loop overwrites it with the first other unborrowed index, if any. -/
def _get_free_writer (r : Inner) : Nat :=
  (freeWriterScan r 0 r.num_segments).getD r.last_written_block

/-- Function _get_recv_index: `last_written_block` when FLAG_CONFLATION is set,
`prev_written_block` otherwise — exactly as in the source. -/
def _get_recv_index (r : Inner) : Nat :=
  if r.flags &&& FLAG_CONFLATION ≠ 0 then r.last_written_block
  else r.prev_written_block

/-- First half of `send`, up to the first `pthread_mutex_unlock`: lock, fail
with no target if `num_receivers == 0` (the source returns here WITHOUT
unlocking), otherwise pick the free writer, set FLAG_CONFLATION or update
`prev_written_block`, and unlock. -/
def sendPhase1 (r : Inner) : Option Nat × Inner :=
  let r := { r with locked := true }
  if r.num_receivers = 0 then
    (none, r)
  else
    let free_writer := _get_free_writer r
    let r :=
      if free_writer = r.last_written_block then
        { r with flags := r.flags ||| FLAG_CONFLATION }
      else
        { r with prev_written_block := r.last_written_block }
    (some free_writer, { r with locked := false })

/-- The unlocked middle of `send`: `memcpy` of `bufsize` bytes into the
chosen segment and the timestamp store. -/
def sendCopy (r : Inner) (fw : Nat) (data : List Nat) (ts : Nat) : Inner :=
  { r with
    segments := r.segments.set fw (some (data.take r.bufsize))
    timestamps := r.timestamps.set fw ts }

/-- Final locked section of `send`: publish `last_written_block` and clear
FLAG_CONFLATION (`flags &= ~FLAG_CONFLATION` on a uint8 is `&&& 254`). -/
def sendFinish (r : Inner) (fw : Nat) : Inner :=
  let r := { r with locked := true }
  let r := { r with last_written_block := fw, flags := r.flags &&& 254 }
  { r with locked := false }

/-- Function send: the three phases in sequence.  Returns the error code and the
final ring state. -/
def send (r : Inner) (data : List Nat) (ts : Nat) : Nat × Inner :=
  match sendPhase1 r with
  | (none, r1) => (NO_RECEIVERS, r1)
  | (some fw, r1) => (0, sendFinish (sendCopy r1 fw data ts) fw)

/-- Function start_recv: lock; fail with SENDER_CLOSED if FLAG_NO_SENDER is set;
otherwise borrow `_get_recv_index`, record index / data pointer / timestamp
into the receiver, unlock. -/
def start_recv (r : Inner) : Nat × Inner × Option Receiver :=
  let r := { r with locked := true }
  if r.flags &&& FLAG_NO_SENDER ≠ 0 then
    (SENDER_CLOSED, { r with locked := false }, none)
  else
    let index := _get_recv_index r
    let r :=
      { r with
        num_borrows :=
          r.num_borrows.set index ((r.num_borrows.getD index 0 + 1) % 256) }
    let r := { r with locked := false }
    (0, r, some ⟨index, r.timestamps.getD index 0⟩)

/-- Function end_recv: lock, decrement the borrow counter of the receiver's index
(uint8 decrement: `+ 255 (mod 256)`), unlock, return 0. -/
def end_recv (r : Inner) (rc : Receiver) : Nat × Inner :=
  let r := { r with locked := true }
  let r :=
    { r with
      num_borrows :=
        r.num_borrows.set rc.index ((r.num_borrows.getD rc.index 0 + 255) % 256) }
  (0, { r with locked := false })

/-- Function free_ringq: releases all segment buffers and the control block. -/
def free_ringq (r : Inner) : Inner :=
  { r with freed := true }

/-- Function _new_segment: fails with MAX_RECEIVERS when the table is full,
otherwise allocates one more segment (content undefined, already `none` in
the model) and increments `num_segments`. -/
def _new_segment (r : Inner) : Nat × Inner :=
  if r.num_segments = MAX_SEGMENTS then (MAX_RECEIVERS, r)
  else (0, { r with num_segments := r.num_segments + 1 })

/-- Function new_receiver (clone): lock, `_new_segment`; on success increment
`num_receivers` (uint8); unlock. -/
def new_receiver (r : Inner) : Nat × Inner :=
  let r := { r with locked := true }
  let p := _new_segment r
  let r :=
    if p.1 = 0 then { p.2 with num_receivers := (p.2.num_receivers + 1) % 256 }
    else p.2
  (p.1, { r with locked := false })

/-- Function free_sender: lock, set FLAG_NO_SENDER; if no receivers remain, free the
ring (the mutex is destroyed while held); otherwise unlock. -/
def free_sender (r : Inner) : Inner :=
  let r := { r with locked := true, flags := r.flags ||| FLAG_NO_SENDER }
  if r.num_receivers = 0 then free_ringq r
  else { r with locked := false }

/-- Modelled from the spec: `drop_recv` (Receiver drop, spec §4.3) is not in
`src/` — only the C core is there; the drop glue lives outside it.  Per the
spec: acquire the lock, decrement `num_receivers`; if FLAG_NO_SENDER is set
and `num_receivers == 0`, call `destroy()` (here `free_ringq`); otherwise
release the lock. -/
def drop_recv (r : Inner) : Inner :=
  let r := { r with locked := true }
  let r := { r with num_receivers := r.num_receivers - 1 }
  if r.flags &&& FLAG_NO_SENDER ≠ 0 ∧ r.num_receivers = 0 then free_ringq r
  else { r with locked := false }

/-- The pool-sufficiency invariant of the spec: at least three segments, and
two more segments than receivers. -/
def ringInv (r : Inner) : Prop :=
  3 ≤ r.num_segments ∧ r.num_receivers + 2 ≤ r.num_segments

/-- The states the ring can be in after `new_ringq` and any finite sequence
of completed operations (including the spec-modelled `drop_recv`). -/
inductive Reachable : Inner → Prop
  | init (bufsize : Nat) : Reachable (new_ringq bufsize)
  | sendStep (r : Inner) (data : List Nat) (ts : Nat) :
      Reachable r → Reachable (send r data ts).2
  | startRecvStep (r : Inner) : Reachable r → Reachable (start_recv r).2.1
  | endRecvStep (r : Inner) (rc : Receiver) :
      Reachable r → Reachable (end_recv r rc).2
  | cloneStep (r : Inner) : Reachable r → Reachable (new_receiver r).2
  | dropSenderStep (r : Inner) : Reachable r → Reachable (free_sender r)
  | dropRecvStep (r : Inner) : Reachable r → Reachable (drop_recv r)

/-- A fresh ring with 4-byte segments, used by the concrete traces below. -/
def ring0 : Inner := new_ringq 4

/-- After one `start_recv` on the fresh ring: slot 1 (`prev_written_block`)
is borrowed. -/
def trace1 : Inner := (start_recv ring0).2.1

/-- After `send` of `[10,10,10,10]` with ts 10 (targets slot 2). -/
def trace2 : Inner := (send trace1 (List.replicate 4 10) 10).2

/-- After a second `start_recv` (borrows slot 0, the new
`prev_written_block`). -/
def trace3 : Inner := (start_recv trace2).2.1

/-- The locked first phase of the next send: every slot other than
`last_written_block = 2` is borrowed, so the target is 2 and FLAG_CONFLATION
is set. -/
def conflatedPhase : Option Nat × Inner := sendPhase1 trace3

/-- The ring state at the instant the sender has released the lock and is
about to copy into its target. -/
def conflatedState : Inner := conflatedPhase.2

/-- The sender's in-flight write target at that instant. -/
def conflatedTarget : Nat := conflatedPhase.1.getD 99

/-- A `start_recv` racing with the in-flight conflated copy. -/
def racingRecv : Nat × Inner × Option Receiver := start_recv conflatedState

/-- The borrow handle that racing `start_recv` returns. -/
def racingBorrow : Receiver := racingRecv.2.2.getD ⟨99, 99⟩

/-- The send of scenario 1: `[0xDE,0xAD,0xBE,0xEF]` with ts 100 on the fresh
ring. -/
def scenario1Send : Nat × Inner := send ring0 [0xDE, 0xAD, 0xBE, 0xEF] 100

/-- The `start_recv` that follows it. -/
def scenario1Recv : Nat × Inner × Option Receiver := start_recv scenario1Send.2

/-- The borrow handle of that `start_recv`. -/
def scenario1Borrow : Receiver := scenario1Recv.2.2.getD ⟨99, 99⟩

/-- A ring state with no receivers (as left by dropping the sole receiver). -/
def noRecvRing : Inner := { new_ringq 4 with num_receivers := 0 }

/-- The second send of the conflation scenario (ts 11), after `trace2`. -/
def scenario3Send2 : Nat × Inner := send trace2 (List.replicate 4 11) 11

/-- The third send of the conflation scenario (ts 12). -/
def scenario3Send3 : Nat × Inner := send scenario3Send2.2 (List.replicate 4 12) 12

/-- The fresh ring after the spec-modelled `drop_recv` on its sole
receiver. -/
def droppedRing : Inner := drop_recv (new_ringq 4)

/-- Iterated `new_receiver` (receiver cloning) on a ring state. -/
def cloneIter (r : Inner) : Nat → Inner
  | 0 => r
  | n + 1 => (new_receiver (cloneIter r n)).2

/-- The result of `start_recv` on a fresh ring before any send. -/
def firstRecv : Nat × Inner × Option Receiver := start_recv (new_ringq 4)

/-- C1: the claimed invariant P1 fails on the code.  On the trace
fresh → start_recv → send(ts 10) → start_recv, the next send conflates
(target = last_written_block = 2) and, at the observable instant after its
first locked section, a racing `start_recv` borrows exactly slot 2 — so
`num_borrows[2] > 0` while 2 is the sender's in-flight write target — and the
sender's copy then changes the payload that borrow observes from
`[10,10,10,10]` to `[11,11,11,11]` before any `end_recv`. -/
theorem aliasedWriteViolation :
    conflatedTarget = 2 ∧
    racingRecv.1 = 0 ∧
    racingBorrow.index = conflatedTarget ∧
    racingRecv.2.1.num_borrows.getD conflatedTarget 0 = 1 ∧
    observe racingRecv.2.1 racingBorrow = some [10, 10, 10, 10] ∧
    observe (sendCopy racingRecv.2.1 conflatedTarget (List.replicate 4 11) 11)
        racingBorrow = some [11, 11, 11, 11] := by
  decide

/-- C2: `_get_recv_index` is inverted with respect to the claim.  In the
reachable state `conflatedState` FLAG_CONFLATION is set with
`last_written_block = 2 ≠ 0 = prev_written_block`, and the code returns
`last_written_block` (the slot being written), not `prev_written_block`;
on the fresh ring the flag is clear and the code returns
`prev_written_block = 1`, not `last_written_block = 0`. -/
theorem recvIndexInverted :
    conflatedState.flags &&& FLAG_CONFLATION = 1 ∧
    conflatedState.last_written_block = 2 ∧
    conflatedState.prev_written_block = 0 ∧
    _get_recv_index conflatedState = 2 ∧
    ring0.flags &&& FLAG_CONFLATION = 0 ∧
    ring0.last_written_block = 0 ∧
    ring0.prev_written_block = 1 ∧
    _get_recv_index ring0 = 1 := by
  decide

/-- C3: on a fresh 4-byte ring, `send([0xDE,0xAD,0xBE,0xEF], 100)` returns 0
and writes slot 1, and the subsequent `start_recv` returns 0 — but it borrows
slot 0 (`prev_written_block`), whose timestamp is 0 and whose payload no send
has ever written, not the just-sent frame with ts 100; `end_recv` returns
0. -/
theorem scenario1StaleRead :
    scenario1Send.1 = 0 ∧
    scenario1Send.2.last_written_block = 1 ∧
    scenario1Send.2.timestamps.getD 1 0 = 100 ∧
    scenario1Recv.1 = 0 ∧
    scenario1Borrow.index = 0 ∧
    scenario1Borrow.timestamp = 0 ∧
    observe scenario1Recv.2.1 scenario1Borrow = none ∧
    (end_recv scenario1Recv.2.1 scenario1Borrow).1 = 0 := by
  decide

/-- C5 (counterexample): in the spec's conflation scenario — fresh 3-segment
ring, one outstanding borrow (slot 1), three sends — the second send targets
slot 0 while the first targeted slot 2 (not the same slot), and neither the
second nor the third send sets FLAG_CONFLATION. -/
theorem conflationScenarioFails :
    (sendPhase1 trace1).1 = some 2 ∧
    (sendPhase1 trace2).1 = some 0 ∧
    (sendPhase1 trace2).1 ≠ (sendPhase1 trace1).1 ∧
    (sendPhase1 trace2).2.flags &&& FLAG_CONFLATION = 0 ∧
    (sendPhase1 scenario3Send2.2).1 = some 2 ∧
    (sendPhase1 scenario3Send2.2).2.flags &&& FLAG_CONFLATION = 0 := by
  decide

/-- C5 (as amended): with 3 segments and a single outstanding borrow the
writer always finds a slot distinct from the previous one — the three sends
target slots 2, 0, 2, none sets FLAG_CONFLATION — and the held borrow on
slot 1 keeps its original (never-written) payload, with its borrow count
still 1, until `end_recv`. -/
theorem conflationScenarioActual :
    (start_recv ring0).2.2 = some ⟨1, 0⟩ ∧
    (sendPhase1 trace1).1 = some 2 ∧
    (sendPhase1 trace1).2.flags &&& FLAG_CONFLATION = 0 ∧
    (sendPhase1 trace2).1 = some 0 ∧
    (sendPhase1 trace2).2.flags &&& FLAG_CONFLATION = 0 ∧
    (sendPhase1 scenario3Send2.2).1 = some 2 ∧
    (sendPhase1 scenario3Send2.2).2.flags &&& FLAG_CONFLATION = 0 ∧
    scenario3Send3.2.num_borrows.getD 1 0 = 1 ∧
    observe scenario3Send3.2 ⟨1, 0⟩ = observe trace1 ⟨1, 0⟩ := by
  decide

/-- C6: dropping the sole receiver (spec-modelled `drop_recv`) leaves
`num_receivers = 0` with the lock released and the ring not freed, and every
subsequent `send` returns NO_RECEIVERS; when FLAG_NO_SENDER is already set
(sender dropped first), `drop_recv` on the last receiver frees the ring. -/
theorem dropRecvThenSendNoReceivers :
    droppedRing.num_receivers = 0 ∧
    droppedRing.locked = false ∧
    droppedRing.freed = false ∧
    (∀ data ts, (send droppedRing data ts).1 = NO_RECEIVERS) ∧
    (drop_recv (free_sender (new_ringq 4))).num_receivers = 0 ∧
    (drop_recv (free_sender (new_ringq 4))).freed = true := by
  refine ⟨rfl, rfl, rfl, fun data ts => rfl, rfl, rfl⟩

/-- C9: from a fresh Sender/Receiver pair, each of the first thirteen clones
succeeds and does so exactly when `num_segments < 16`; after them
`num_segments = 16` and `num_receivers = 14`; the fourteenth clone returns
MAX_RECEIVERS and leaves both counts unchanged. -/
theorem cloneCap :
    (∀ k, k < 14 →
      ((new_receiver (cloneIter (new_ringq 4) k)).1 = 0 ↔
        (cloneIter (new_ringq 4) k).num_segments < 16)) ∧
    (∀ k, k < 13 → (new_receiver (cloneIter (new_ringq 4) k)).1 = 0) ∧
    (cloneIter (new_ringq 4) 13).num_segments = 16 ∧
    (cloneIter (new_ringq 4) 13).num_receivers = 14 ∧
    (new_receiver (cloneIter (new_ringq 4) 13)).1 = MAX_RECEIVERS ∧
    (new_receiver (cloneIter (new_ringq 4) 13)).2.num_segments = 16 ∧
    (new_receiver (cloneIter (new_ringq 4) 13)).2.num_receivers = 14 := by
  decide

/-- C10: on a freshly created ring, before any send, `start_recv` returns 0
and borrows slot 1 — the `prev_written_block` of `init_ringq` — recording
timestamp 0; that slot's payload has never been written. -/
theorem freshRecvBorrowsUnwritten :
    firstRecv.1 = 0 ∧
    firstRecv.2.2 = some ⟨1, 0⟩ ∧
    (new_ringq 4).prev_written_block = 1 ∧
    firstRecv.2.1.num_borrows.getD 1 0 = 1 ∧
    observe firstRecv.2.1 ⟨1, 0⟩ = none := by
  decide

/-- C4: whenever `send` runs with `num_receivers = 0` it returns NO_RECEIVERS
and the only change to the ring state is that the mutex is now held — the
source returns from inside the critical section without calling
`pthread_mutex_unlock`, contradicting the claim that the lock is released on
this path. -/
theorem sendNoReceiversLeavesLockHeld (r : Inner) (data : List Nat) (ts : Nat)
    (h : r.num_receivers = 0) :
    send r data ts = (NO_RECEIVERS, { r with locked := true }) := by
  unfold send sendPhase1
  simp [h]

/-- Witness for `sendNoReceiversLeavesLockHeld` at a concrete
zero-receiver ring. -/
theorem sendNoReceiversLeavesLockHeld_w :
    send noRecvRing [] 0 = (NO_RECEIVERS, { noRecvRing with locked := true }) :=
  sendNoReceiversLeavesLockHeld noRecvRing [] 0 (by decide)

/-- Helper: the scan of `_get_free_writer` returns `none` exactly when every
index of `[i, i+fuel)` other than `last_written_block` has a nonzero borrow
count. -/
theorem freeWriterScan_eq_none (r : Inner) (fuel : Nat) :
    ∀ i, freeWriterScan r i fuel = none ↔
      ∀ k, i ≤ k → k < i + fuel → k ≠ r.last_written_block →
        r.num_borrows.getD k 0 ≠ 0 := by
  induction fuel with
  | zero =>
    intro i
    simp only [freeWriterScan]
    constructor
    · intro _ k hk1 hk2 _
      omega
    · intro _
      trivial
  | succ fuel ih =>
    intro i
    simp only [freeWriterScan]
    by_cases h1 : i = r.last_written_block
    · rw [if_pos h1, ih (i + 1)]
      constructor
      · intro hall k hk1 hk2 hk3
        exact hall k (by omega) (by omega) hk3
      · intro hall k hk1 hk2 hk3
        exact hall k (by omega) (by omega) hk3
    · rw [if_neg h1]
      by_cases h2 : r.num_borrows.getD i 0 = 0
      · rw [if_pos h2]
        constructor
        · intro h
          exact absurd h (by simp)
        · intro hall
          exact absurd h2 (hall i (Nat.le_refl i) (by omega) h1)
      · rw [if_neg h2, ih (i + 1)]
        constructor
        · intro hall k hk1 hk2 hk3
          rcases Nat.lt_or_ge k (i + 1) with hk | hk
          · have hki : k = i := by omega
            rw [hki]
            exact h2
          · exact hall k hk (by omega) hk3
        · intro hall k hk1 hk2 hk3
          exact hall k (by omega) (by omega) hk3

/-- Helper: when the scan of `_get_free_writer` returns `some j`, `j` is the
least index of `[i, i+fuel)` that avoids `last_written_block` and has no
borrows. -/
theorem freeWriterScan_eq_some (r : Inner) (fuel : Nat) :
    ∀ i j, freeWriterScan r i fuel = some j →
      i ≤ j ∧ j < i + fuel ∧ j ≠ r.last_written_block ∧
      r.num_borrows.getD j 0 = 0 ∧
      ∀ k, i ≤ k → k < j → k ≠ r.last_written_block →
        r.num_borrows.getD k 0 ≠ 0 := by
  induction fuel with
  | zero =>
    intro i j h
    simp [freeWriterScan] at h
  | succ fuel ih =>
    intro i j h
    simp only [freeWriterScan] at h
    by_cases h1 : i = r.last_written_block
    · rw [if_pos h1] at h
      obtain ⟨a1, a2, a3, a4, a5⟩ := ih (i + 1) j h
      refine ⟨by omega, by omega, a3, a4, ?_⟩
      intro k hk1 hk2 hk3
      exact a5 k (by omega) hk2 hk3
    · rw [if_neg h1] at h
      by_cases h2 : r.num_borrows.getD i 0 = 0
      · rw [if_pos h2] at h
        have hij : i = j := by injection h
        subst hij
        refine ⟨Nat.le_refl i, by omega, h1, h2, ?_⟩
        intro k hk1 hk2 _
        omega
      · rw [if_neg h2] at h
        obtain ⟨a1, a2, a3, a4, a5⟩ := ih (i + 1) j h
        refine ⟨by omega, by omega, a3, a4, ?_⟩
        intro k hk1 hk2 hk3
        rcases Nat.lt_or_ge k (i + 1) with hk | hk
        · have hki : k = i := by omega
          rw [hki]
          exact h2
        · exact a5 k hk hk2 hk3

/-- C7: `_get_free_writer` either returns `last_written_block` because every
other index below `num_segments` is borrowed, or it returns the first index
of the increasing scan `0..num_segments` that is not `last_written_block`
and has `num_borrows = 0`. -/
theorem getFreeWriterSpec (r : Inner) :
    (_get_free_writer r = r.last_written_block ∧
      ∀ i, i < r.num_segments → i ≠ r.last_written_block →
        r.num_borrows.getD i 0 ≠ 0) ∨
    (_get_free_writer r < r.num_segments ∧
      _get_free_writer r ≠ r.last_written_block ∧
      r.num_borrows.getD (_get_free_writer r) 0 = 0 ∧
      ∀ k, k < _get_free_writer r → k ≠ r.last_written_block →
        r.num_borrows.getD k 0 ≠ 0) := by
  unfold _get_free_writer
  cases h : freeWriterScan r 0 r.num_segments with
  | none =>
    left
    refine ⟨rfl, ?_⟩
    intro i hi hne
    exact (freeWriterScan_eq_none r r.num_segments 0).mp h i (Nat.zero_le i)
      (by omega) hne
  | some j =>
    right
    obtain ⟨a1, a2, a3, a4, a5⟩ := freeWriterScan_eq_some r r.num_segments 0 j h
    simp only [Option.getD_some]
    exact ⟨by omega, a3, a4, fun k hk hne => a5 k (Nat.zero_le k) hk hne⟩

/-- Helper: `send` never changes `num_segments` or `num_receivers`. -/
theorem send_counts (r : Inner) (data : List Nat) (ts : Nat) :
    (send r data ts).2.num_segments = r.num_segments ∧
    (send r data ts).2.num_receivers = r.num_receivers := by
  unfold send sendPhase1 sendCopy sendFinish
  dsimp only
  split_ifs <;> exact ⟨rfl, rfl⟩

/-- Helper: `start_recv` never changes `num_segments` or `num_receivers`. -/
theorem start_recv_counts (r : Inner) :
    (start_recv r).2.1.num_segments = r.num_segments ∧
    (start_recv r).2.1.num_receivers = r.num_receivers := by
  unfold start_recv
  dsimp only
  split_ifs <;> exact ⟨rfl, rfl⟩

/-- Helper: `end_recv` never changes `num_segments` or `num_receivers`. -/
theorem end_recv_counts (r : Inner) (rc : Receiver) :
    (end_recv r rc).2.num_segments = r.num_segments ∧
    (end_recv r rc).2.num_receivers = r.num_receivers := by
  exact ⟨rfl, rfl⟩

/-- Helper: `new_receiver` either leaves both counts unchanged (table full)
or increments both `num_segments` and `num_receivers`. -/
theorem new_receiver_counts (r : Inner) :
    ((new_receiver r).2.num_segments = r.num_segments ∧
      (new_receiver r).2.num_receivers = r.num_receivers) ∨
    ((new_receiver r).2.num_segments = r.num_segments + 1 ∧
      (new_receiver r).2.num_receivers = (r.num_receivers + 1) % 256) := by
  unfold new_receiver _new_segment
  dsimp only
  by_cases h1 : r.num_segments = MAX_SEGMENTS
  · rw [if_pos h1]
    left
    exact ⟨rfl, rfl⟩
  · rw [if_neg h1]
    right
    exact ⟨rfl, rfl⟩

/-- Helper: `free_sender` never changes `num_segments` or `num_receivers`. -/
theorem free_sender_counts (r : Inner) :
    (free_sender r).num_segments = r.num_segments ∧
    (free_sender r).num_receivers = r.num_receivers := by
  unfold free_sender free_ringq
  dsimp only
  split_ifs <;> exact ⟨rfl, rfl⟩

/-- Helper: `drop_recv` decrements `num_receivers` and keeps
`num_segments`. -/
theorem drop_recv_counts (r : Inner) :
    (drop_recv r).num_segments = r.num_segments ∧
    (drop_recv r).num_receivers = r.num_receivers - 1 := by
  unfold drop_recv free_ringq
  dsimp only
  split_ifs <;> exact ⟨rfl, rfl⟩

/-- Helper: every reachable ring state satisfies the pool-sufficiency
invariant `ringInv`. -/
theorem reachable_ringInv (r : Inner) (h : Reachable r) : ringInv r := by
  induction h with
  | init bufsize =>
    exact ⟨Nat.le_refl 3, Nat.le_refl 3⟩
  | sendStep r data ts _ ih =>
    obtain ⟨e1, e2⟩ := send_counts r data ts
    unfold ringInv at ih ⊢
    omega
  | startRecvStep r _ ih =>
    obtain ⟨e1, e2⟩ := start_recv_counts r
    unfold ringInv at ih ⊢
    omega
  | endRecvStep r rc _ ih =>
    obtain ⟨e1, e2⟩ := end_recv_counts r rc
    unfold ringInv at ih ⊢
    omega
  | cloneStep r _ ih =>
    unfold ringInv at ih ⊢
    rcases new_receiver_counts r with ⟨e1, e2⟩ | ⟨e1, e2⟩ <;> omega
  | dropSenderStep r _ ih =>
    obtain ⟨e1, e2⟩ := free_sender_counts r
    unfold ringInv at ih ⊢
    omega
  | dropRecvStep r _ ih =>
    obtain ⟨e1, e2⟩ := drop_recv_counts r
    unfold ringInv at ih ⊢
    omega

/-- C8: after `new_ringq` and after every completed operation — any
reachable ring state — `num_segments ≥ max(3, num_receivers + 2)`; in
particular the pool-sufficiency bound `num_segments ≥ num_receivers + 2` is
preserved by send, start_recv, end_recv, clone and the drops. -/
theorem poolSufficiency (r : Inner) (h : Reachable r) :
    max 3 (r.num_receivers + 2) ≤ r.num_segments :=
  max_le (reachable_ringInv r h).1 (reachable_ringInv r h).2

/-- Witness for `poolSufficiency` at the freshly created ring. -/
theorem poolSufficiency_w :
    max 3 ((new_ringq 4).num_receivers + 2) ≤ (new_ringq 4).num_segments :=
  poolSufficiency (new_ringq 4) (Reachable.init 4)

end Videoq
